import Mathlib

/-
  Verification development for the message-driven task orchestrator
  (AgentMaster / JobsQueueManager / MessagingManager / FunctionsManager /
  LLMManager).  The TypeScript sources are embedded shallowly: pure code
  becomes Lean functions, stateful code becomes explicit state passing,
  and calls into external services (broker, durable queue, LLM vendors,
  function handlers) are supplied as explicit outcome parameters, so each
  theorem quantifies over every outcome those services can produce.
  Times are modelled as integer milliseconds since the epoch.
-/

namespace Spec2Proof

/-! ## JavaScript values

JSON values as produced by JSON.parse.  Numbers are kept exactly as a
decimal mantissa and exponent (value = m * 10 ^ e); the claims settled
here never depend on floating-point rounding of numeric literals. -/

inductive Json where
  | null
  | bool (b : Bool)
  | num (m : Int) (e : Int)
  | str (s : String)
  | arr (elems : List Json)
  | obj (fields : List (String × Json))
deriving Repr, Inhabited

/-- JavaScript truthiness of a parsed JSON value: null, false, 0 and the
empty string are falsy; every array and object is truthy. -/
def truthy : Json → Bool
  | .null => false
  | .bool b => b
  | .num m _ => m != 0
  | .str s => s != ""
  | .arr _ => true
  | .obj _ => true

/-- Property access on a parsed JSON value.  JSON.parse keeps the last
occurrence of a duplicated key, hence the reversed lookup. -/
def jsGetField (j : Json) (k : String) : Option Json :=
  match j with
  | .obj fields => (fields.reverse.find? (fun p => p.1 == k)).map (fun p => p.2)
  | _ => none

/-! ## A JSON parser (model of JSON.parse)

Recursive-descent parser over the character list, made total with a fuel
argument.  The initial fuel (4 * length + 16) dominates the number of
recursive calls any input can cause, since every unit of fuel spent on
recursion follows the consumption of at least one input character at the
enclosing step; the theorems about the decision parser are conditional on
the parse outcome and never depend on fuel sufficiency. -/

def isJsonWs (c : Char) : Bool :=
  c == ' ' || c == '\t' || c == '\n' || c == '\r'

def skipWs (cs : List Char) : List Char :=
  cs.dropWhile isJsonWs

def hexDigitVal (c : Char) : Option Nat :=
  if '0' ≤ c ∧ c ≤ '9' then some (c.toNat - '0'.toNat)
  else if 'a' ≤ c ∧ c ≤ 'f' then some (c.toNat - 'a'.toNat + 10)
  else if 'A' ≤ c ∧ c ≤ 'F' then some (c.toNat - 'A'.toNat + 10)
  else none

/-- Body of a JSON string literal, after the opening quote.  Escapes are
decoded as JSON.parse does; a \u escape that denotes an unpaired
surrogate is mapped to the null character (Lean characters are scalar
values), which no settled claim depends on. -/
def parseStringBody : Nat → List Char → List Char → Option (String × List Char)
  | 0, _, _ => none
  | _ + 1, [], _ => none
  | _ + 1, '"' :: rest, acc => some (String.mk acc.reverse, rest)
  | fuel + 1, '\\' :: e :: rest, acc =>
    match e with
    | '"' => parseStringBody fuel rest ('"' :: acc)
    | '\\' => parseStringBody fuel rest ('\\' :: acc)
    | '/' => parseStringBody fuel rest ('/' :: acc)
    | 'b' => parseStringBody fuel rest ('\x08' :: acc)
    | 'f' => parseStringBody fuel rest ('\x0c' :: acc)
    | 'n' => parseStringBody fuel rest ('\n' :: acc)
    | 'r' => parseStringBody fuel rest ('\x0d' :: acc)
    | 't' => parseStringBody fuel rest ('\t' :: acc)
    | 'u' =>
      match rest with
      | h1 :: h2 :: h3 :: h4 :: rest2 =>
        match hexDigitVal h1, hexDigitVal h2, hexDigitVal h3, hexDigitVal h4 with
        | some a, some b, some c, some d =>
          let code := ((a * 16 + b) * 16 + c) * 16 + d
          let ch := if code < 0xd800 ∨ (0xdfff < code ∧ code < 0x110000)
            then Char.ofNat code else Char.ofNat 0
          parseStringBody fuel rest2 (ch :: acc)
        | _, _, _, _ => none
      | _ => none
    | _ => none
  | fuel + 1, c :: rest, acc =>
    if c.toNat < 0x20 then none else parseStringBody fuel rest (c :: acc)

def digitsToNat (ds : List Char) : Nat :=
  ds.foldl (fun acc c => acc * 10 + (c.toNat - '0'.toNat)) 0

/-- JSON number grammar: optional minus, integer part without leading
zeros, optional fraction, optional exponent.  Returns the value as
mantissa and decimal exponent. -/
def parseNumber (cs : List Char) : Option (Json × List Char) :=
  let (neg, cs1) := match cs with
    | '-' :: t => (true, t)
    | _ => (false, cs)
  let intPart : Option (Nat × List Char) := match cs1 with
    | '0' :: t =>
      if (t.head?.map Char.isDigit).getD false then none else some (0, t)
    | c :: t =>
      if c.isDigit then
        let (ds, rest) := t.span Char.isDigit
        some (digitsToNat (c :: ds), rest)
      else none
    | [] => none
  match intPart with
  | none => none
  | some (ip, rest1) =>
    let fracPart : Option (Nat × Nat × List Char) := match rest1 with
      | '.' :: t =>
        let (ds, rest) := t.span Char.isDigit
        if ds.isEmpty then none else some (digitsToNat ds, ds.length, rest)
      | _ => some (0, 0, rest1)
    match fracPart with
    | none => none
    | some (fp, flen, rest2) =>
      let mant : Int := Int.ofNat (ip * 10 ^ flen + fp)
      let mant := if neg then -mant else mant
      let expPart : Option (Int × List Char) := match rest2 with
        | 'e' :: t | 'E' :: t =>
          let (esign, t2) := match t with
            | '+' :: u => ((1 : Int), u)
            | '-' :: u => ((-1 : Int), u)
            | _ => ((1 : Int), t)
          let (ds, rest) := t2.span Char.isDigit
          if ds.isEmpty then none else some (esign * Int.ofNat (digitsToNat ds), rest)
        | _ => some (0, rest2)
      match expPart with
      | none => none
      | some (ev, rest3) => some (.num mant (ev - Int.ofNat flen), rest3)

mutual

def parseValue : Nat → List Char → Option (Json × List Char)
  | 0, _ => none
  | fuel + 1, cs =>
    match skipWs cs with
    | 'n' :: 'u' :: 'l' :: 'l' :: rest => some (.null, rest)
    | 't' :: 'r' :: 'u' :: 'e' :: rest => some (.bool true, rest)
    | 'f' :: 'a' :: 'l' :: 's' :: 'e' :: rest => some (.bool false, rest)
    | '"' :: rest => (parseStringBody (rest.length + 1) rest []).map
        (fun p => (.str p.1, p.2))
    | '[' :: rest =>
      (match skipWs rest with
       | ']' :: r2 => some (.arr [], r2)
       | r1 => parseArrayElems fuel r1 [])
    | '\x7b' :: rest =>
      (match skipWs rest with
       | '\x7d' :: r2 => some (.obj [], r2)
       | r1 => parseObjFields fuel r1 [])
    | cs1 => parseNumber cs1

def parseArrayElems : Nat → List Char → List Json → Option (Json × List Char)
  | 0, _, _ => none
  | fuel + 1, cs, acc =>
    match parseValue fuel cs with
    | none => none
    | some (v, rest) =>
      match skipWs rest with
      | ',' :: r2 => parseArrayElems fuel r2 (v :: acc)
      | ']' :: r2 => some (.arr (v :: acc).reverse, r2)
      | _ => none

def parseObjFields : Nat → List Char → List (String × Json) →
    Option (Json × List Char)
  | 0, _, _ => none
  | fuel + 1, cs, acc =>
    match cs with
    | '"' :: rest =>
      (match parseStringBody (rest.length + 1) rest [] with
       | none => none
       | some (key, r1) =>
         match skipWs r1 with
         | ':' :: r2 =>
           (match parseValue fuel r2 with
            | none => none
            | some (v, r3) =>
              match skipWs r3 with
              | ',' :: r4 =>
                (match skipWs r4 with
                 | '"' :: _ => parseObjFields fuel (skipWs r4) ((key, v) :: acc)
                 | _ => none)
              | '\x7d' :: r4 => some (.obj ((key, v) :: acc).reverse, r4)
              | _ => none)
         | _ => none)
    | _ => none

end

/-- Model of JSON.parse: parse one value and require only trailing
whitespace after it. -/
def jsonParse (s : String) : Option Json :=
  let cs := s.data
  match parseValue (4 * cs.length + 16) cs with
  | some (v, rest) => if (skipWs rest).isEmpty then some v else none
  | none => none

/-! ## AgentMaster.parseLLMDecision -/

/-- Model of the regex match /\x7b[\s\S]*\x7d/ applied to the raw model
reply: the (greedy) match runs from the first opening brace to the last
closing brace, provided the latter comes after the former. -/
def jsonMatch (s : String) : Option String :=
  let cs := s.data
  match cs.findIdx? (fun c => c == '\x7b') with
  | none => none
  | some i =>
    match cs.reverse.findIdx? (fun c => c == '\x7d') with
    | none => none
    | some rj =>
      let j := cs.length - 1 - rj
      if i < j then some (String.mk ((cs.drop i).take (j - i + 1))) else none

def fallbackClarification : String :=
  "I understand your message, but I need more specific instructions to help you effectively."

/-- The deterministic fallback decision returned whenever the model reply
cannot be turned into a usable decision object. -/
def fallbackDecision : Json :=
  .obj [("action", .str "direct_response"),
        ("response_message", .str fallbackClarification)]

/-- Model of AgentMaster.parseLLMDecision: extract the brace-delimited
fragment, parse it, and require a truthy action field; every failure
(including a thrown error) is caught and replaced by the fallback
decision, so the function is total. -/
def parseLLMDecision (response : String) : Json :=
  match jsonMatch response with
  | none => fallbackDecision
  | some frag =>
    match jsonParse frag with
    | none => fallbackDecision
    | some decision =>
      match jsGetField decision "action" with
      | none => fallbackDecision
      | some a => if truthy a then decision else fallbackDecision

/-! ## Shared enums (src/types/index.ts) -/

inductive FunctionType where
  | helper
  | runner
  | worker
deriving Repr, DecidableEq

inductive JobExecutionType where
  | instant
  | schedule
  | repeated
deriving Repr, DecidableEq

inductive JobStatus where
  | pending
  | running
  | completed
  | failed
  | cancelled
deriving Repr, DecidableEq

inductive LLMProvider where
  | openai
  | anthropic
  | google
deriving Repr, DecidableEq

/-! ## JavaScript Map, modelled as an insertion-ordered association list
with unique keys (Map.get / Map.set / deletion semantics). -/

def mapGet {α : Type} (m : List (String × α)) (k : String) : Option α :=
  (m.find? (fun p => p.1 == k)).map (fun p => p.2)

def mapSet {α : Type} : List (String × α) → String → α → List (String × α)
  | [], k, v => [(k, v)]
  | p :: t, k, v => if p.1 == k then (k, v) :: t else p :: mapSet t k v

theorem mapGet_mapSet_self {α : Type} (k : String) (v : α) :
    ∀ m : List (String × α), mapGet (mapSet m k v) k = some v := by
  intro m
  induction m with
  | nil => simp [mapSet, mapGet, List.find?]
  | cons p t ih =>
    by_cases h : p.1 == k
    · simp [mapSet, h, mapGet, List.find?]
    · simp only [mapSet, h, Bool.false_eq_true, if_false]
      simpa [mapGet, List.find?, h] using ih

/-! ## FunctionsManager (function registry) -/

structure IFunctionParameter where
  name : String
  type : String
  description : String
  required : Bool
  default : Option Json := none
deriving Repr

structure IFunctionDefinition where
  name : String
  description : String
  type : FunctionType
  parameters : List IFunctionParameter
  timeout : Option Int := none
  retries : Option Int := none
deriving Repr

/-- A registered callable unit.  The executable handler is external
application code; where a claim depends on a handler invocation its
outcome (settle time and value or thrown error) is passed explicitly. -/
structure ICustomFunction where
  definition : IFunctionDefinition
deriving Repr

/-- FunctionsManager.getFunction: lookup by definition name (the map is
keyed by definition.name when functions are loaded). -/
def getFunction (fns : List ICustomFunction) (name : String) :
    Option ICustomFunction :=
  fns.find? (fun f => f.definition.name == name)

/-- The effective timeout used by FunctionsManager.executeFunction:
the declared timeout when truthy, else the 30000 ms default
(the source computes definition.timeout or-else 30000). -/
def effectiveTimeout (d : IFunctionDefinition) : Int :=
  match d.timeout with
  | some t => if t = 0 then 30000 else t
  | none => 30000

/-- FunctionsManager.executeFunction: looks the function up, then races
the handler promise against a rejection timer set to the effective
timeout.  The handler is external: its settle time (ms after the call)
and settled outcome are explicit inputs.  When the timer fires first the
caller receives the timeout error and the eventual handler outcome is
discarded; the handler itself keeps running and is not killed, which the
model reflects by the result being independent of the handler outcome in
that case. -/
def executeFunction (fns : List ICustomFunction) (name : String)
    (settleTime : Int) (outcome : Except String Json) : Except String Json :=
  match getFunction fns name with
  | none => .error ("Function " ++ name ++ " not found")
  | some f =>
    if settleTime < effectiveTimeout f.definition then outcome
    else .error "Function execution timeout"

/-! ## JobsQueueManager (Job Engine) -/

structure IJobData where
  functionName : String
  parameters : List (String × Json) := []
  executionType : JobExecutionType
  scheduleTime : Option Int := none
  repeatInterval : Option Int := none
  repeatDeadline : Option Int := none
  priority : Option Int := none
  retries : Option Int := none
deriving Repr

structure IJob where
  id : String
  data : IJobData
  status : JobStatus
  createdAt : Int
  startedAt : Option Int := none
  completedAt : Option Int := none
  result : Option Json := none
  error : Option String := none
deriving Repr

/-- JavaScript or-else on an optional number: the default replaces both a
missing and a zero (falsy) value. -/
def jsOrElseInt (v : Option Int) (d : Int) : Int :=
  match v with
  | some x => if x = 0 then d else x
  | none => d

/-- Options of a job handed to the durable queue (BullMQ add call). -/
structure BullJobOptions where
  jobId : String
  priority : Int
  attempts : Int
  delay : Option Int := none
  repeatEvery : Option Int := none
  repeatEndDate : Option Int := none
deriving Repr

structure BullJob where
  name : String
  data : IJobData
  opts : BullJobOptions
deriving Repr

/-- State owned by JobsQueueManager: the in-memory job-status map, the
durable queue contents, and the two timer maps (modelled by the ids they
hold). -/
structure JQState where
  jobs : List (String × IJob) := []
  queue : List BullJob := []
  scheduledJobs : List String := []
  repeatJobs : List String := []
deriving Repr

/-- JobsQueueManager.updateJobStatus: mutates the record for a known job
id (status, optional result, truthy error, and the started/completed
timestamps); an unknown id leaves the map untouched.  Invoked by the
worker and queue event handlers (completed/failed/active/waiting) and by
cancelJob. -/
def updateJobStatus (jobs : List (String × IJob)) (jobId : String)
    (status : JobStatus) (result : Option Json) (error : Option String)
    (now : Int) : List (String × IJob) :=
  match mapGet jobs jobId with
  | none => jobs
  | some job =>
    let job := { job with status := status }
    let job := match result with
      | some r => { job with result := some r }
      | none => job
    let job := match error with
      | some e => if e ≠ "" then { job with error := some e } else job
      | none => job
    let job :=
      if status = JobStatus.running then { job with startedAt := some now }
      else if status = JobStatus.completed ∨ status = JobStatus.failed then
        { job with completedAt := some now }
      else job
    mapSet jobs jobId job

/-- JobsQueueManager.addInstantJob: enqueue for immediate pickup. -/
def addInstantJob (s : JQState) (jobId : String) (jobData : IJobData) :
    JQState :=
  { s with queue := s.queue ++ [{
      name := "execute-function",
      data := jobData,
      opts := { jobId := jobId,
                priority := jsOrElseInt jobData.priority 0,
                attempts := jsOrElseInt jobData.retries 3,
                delay := some 0 } }] }

/-- JobsQueueManager.addScheduledJob: requires a schedule time whose
delay from now is strictly positive, then enqueues with that delay. -/
def addScheduledJob (s : JQState) (jobId : String) (jobData : IJobData)
    (now : Int) : Except String JQState :=
  match jobData.scheduleTime with
  | none => .error "Schedule time is required for scheduled jobs"
  | some st =>
    let delay := st - now
    if delay ≤ 0 then .error "Schedule time must be in the future"
    else .ok { s with queue := s.queue ++ [{
      name := "execute-function",
      data := jobData,
      opts := { jobId := jobId,
                delay := some delay,
                priority := jsOrElseInt jobData.priority 0,
                attempts := jsOrElseInt jobData.retries 3 } }] }

/-- JobsQueueManager.addRepeatJob: requires a truthy repeat interval and
a Runner-class target function, then enqueues a recurring schedule whose
end date defaults to 24 hours from now. -/
def addRepeatJob (fns : List ICustomFunction) (s : JQState) (jobId : String)
    (jobData : IJobData) (now : Int) : Except String JQState :=
  match jobData.repeatInterval with
  | none => .error "Repeat interval is required for repeat jobs"
  | some ri =>
    if ri = 0 then .error "Repeat interval is required for repeat jobs"
    else
      let fnType := (getFunction fns jobData.functionName).map
        (fun f => f.definition.type)
      if fnType ≠ some FunctionType.runner then
        .error "Only runner functions can be repeated"
      else
        let deadline := jobData.repeatDeadline.getD (now + 24 * 60 * 60 * 1000)
        .ok { s with queue := s.queue ++ [{
          name := "execute-function",
          data := jobData,
          opts := { jobId := jobId,
                    priority := jsOrElseInt jobData.priority 0,
                    attempts := jsOrElseInt jobData.retries 3,
                    repeatEvery := some ri,
                    repeatEndDate := some deadline } }] }

/-- The Pending record addJob stores before dispatching on the
execution type. -/
def pendingRecord (jobId : String) (jobData : IJobData) (now : Int) : IJob :=
  { id := jobId, data := jobData, status := JobStatus.pending, createdAt := now }

/-- JobsQueueManager.addJob.  The fresh uuid is an explicit input.  The
result pairs the thrown-or-returned outcome with the final state: the
job record is inserted into the in-memory map before the per-mode
validation runs, and an exception from that validation does not roll the
insertion back (this.jobs is mutated in place in the source). -/
def addJob (fns : List ICustomFunction) (s : JQState) (jobId : String)
    (jobData : IJobData) (now : Int) : Except String String × JQState :=
  if (getFunction fns jobData.functionName).isNone then
    (.error ("Function " ++ jobData.functionName ++ " not found"), s)
  else
    let s1 := { s with jobs := mapSet s.jobs jobId (pendingRecord jobId jobData now) }
    match jobData.executionType with
    | JobExecutionType.instant => (.ok jobId, addInstantJob s1 jobId jobData)
    | JobExecutionType.schedule =>
      (match addScheduledJob s1 jobId jobData now with
       | .ok s2 => (.ok jobId, s2)
       | .error e => (.error e, s1))
    | JobExecutionType.repeated =>
      (match addRepeatJob fns s1 jobId jobData now with
       | .ok s2 => (.ok jobId, s2)
       | .error e => (.error e, s1))

/-- JobsQueueManager.cancelJob: false for an unknown id; for any known
job it removes the durable-queue entry and timers, overwrites the status
with Cancelled through updateJobStatus, and returns true.  No terminal-
state check is performed in the source. -/
def cancelJob (s : JQState) (jobId : String) (now : Int) : Bool × JQState :=
  match mapGet s.jobs jobId with
  | none => (false, s)
  | some _ =>
    let s := { s with queue := s.queue.filter (fun b => !(b.opts.jobId == jobId)) }
    let s := { s with scheduledJobs := s.scheduledJobs.filter (fun j => !(j == jobId)) }
    let s := { s with repeatJobs := s.repeatJobs.filter (fun j => !(j == jobId)) }
    let s := { s with jobs := updateJobStatus s.jobs jobId JobStatus.cancelled none none now }
    (true, s)

/-! ## LLMManager -/

structure ILLMConfig where
  provider : LLMProvider
  apiKey : String
  model : String
  temperature : Option Int := none
  maxTokens : Option Int := none
  systemPrompt : Option String := none
deriving Repr

/-- One provider session owned by the LLM gateway (the vendor client
object carries no model-relevant state). -/
structure ILLMInstance where
  id : String
  config : ILLMConfig
  createdAt : Int
  lastUsed : Option Int := none
deriving Repr

def dayMs : Int := 24 * 60 * 60 * 1000

/-- LLMManager.cleanup: delete every instance whose lastUsed timestamp
exists and is strictly older than 24 hours before now; instances never
used (no lastUsed) are kept. -/
def cleanup (instances : List (String × ILLMInstance)) (now : Int) :
    List (String × ILLMInstance) :=
  instances.filter (fun p =>
    match p.2.lastUsed with
    | some t => if t < now - dayMs then false else true
    | none => true)

/-! ## mathUtils helper function (src/functions/helper/mathUtils.ts)

Numbers are modelled as rationals; every value the settled claim touches
(the inputs 10, 20, 30, 45, 55 and the mean 32) is exactly representable
in binary floating point, so the rational model agrees with the source. -/

/-- Shape of the object returned by the mathUtils handler: the
statistics operations carry input, result and count; factorial carries
the single input and result. -/
inductive MathReturn where
  | stats (operation : String) (input : List ℚ) (result : ℚ) (count : Nat)
  | fact (input : ℚ) (result : ℚ)
deriving Repr, DecidableEq

/-- Math.round(q * 100) / 100 — JavaScript rounds half toward positive
infinity, i.e. floor(x + 1/2). -/
def round2 (q : ℚ) : ℚ := (Int.floor (q * 100 + 1 / 2) : ℚ) / 100

def listSum (l : List ℚ) : ℚ := l.foldl (fun acc n => acc + n) 0

/-- operation.toLowerCase() — ASCII lowering, character by character
(all operation names in the source are ASCII). -/
def jsToLower (s : String) : String := String.mk (s.data.map Char.toLower)

/-- Math.min over a non-empty argument list (callers guard emptiness;
the [] case is unreachable). -/
def listMin : List ℚ → ℚ
  | [] => 0
  | x :: xs => xs.foldl min x

def listMax : List ℚ → ℚ
  | [] => 0
  | x :: xs => xs.foldl max x

/-- The mathUtils handler.  The two parameters arrive as optional values
(absent models a missing or non-array / non-string argument, which the
source rejects the same way); elements are already numeric, as the
Number conversion is identity on numbers.  The factorial loop of the
source computes the product 2..n, which is n factorial. -/
def mathUtilsHandler (numbers : Option (List ℚ)) (operation : Option String) :
    Except String MathReturn :=
  match numbers with
  | none => .error "Numbers parameter is required and must be an array"
  | some nums =>
    match operation with
    | none => .error "Operation parameter is required and must be a string"
    | some op =>
      if op = "" then .error "Operation parameter is required and must be a string"
      else
        match jsToLower op with
        | "sum" => .ok (.stats "sum" nums (listSum nums) nums.length)
        | "average" =>
          if nums.length = 0 then .error "Cannot calculate average of empty array"
          else .ok (.stats "average" nums
            (round2 (listSum nums / (nums.length : ℚ))) nums.length)
        | "min" =>
          if nums.length = 0 then .error "Cannot find minimum of empty array"
          else .ok (.stats "minimum" nums (listMin nums) nums.length)
        | "max" =>
          if nums.length = 0 then .error "Cannot find maximum of empty array"
          else .ok (.stats "maximum" nums (listMax nums) nums.length)
        | "median" =>
          if nums.length = 0 then .error "Cannot find median of empty array"
          else
            let sorted := nums.mergeSort (fun a b => a ≤ b)
            let middle := sorted.length / 2
            let median := if sorted.length % 2 = 0
              then (sorted.getD (middle - 1) 0 + sorted.getD middle 0) / 2
              else sorted.getD middle 0
            .ok (.stats "median" nums median nums.length)
        | "factorial" =>
          if nums.length ≠ 1 then
            .error "Factorial operation requires exactly one number"
          else
            let n := nums.getD 0 0
            if n < 0 ∨ n.den ≠ 1 then
              .error "Factorial requires a non-negative integer"
            else if 20 < n then
              .error "Factorial calculation limited to numbers <= 20 to prevent overflow"
            else .ok (.fact n (Nat.factorial n.num.toNat : ℚ))
        | _ => .error ("Unsupported operation: " ++ op ++
            ". Supported operations: sum, average, min, max, median, factorial")

/-! ## AgentMaster (Orchestrator)

The decision step, the dispatch on the decision, and the message
handler.  Interactions with external collaborators — the LLM call, the
job engine round trips and the outbound publish — are supplied as
explicit outcomes so the theorems quantify over everything those calls
can do (including throwing). -/

/-- String coercion used where the source interpolates a decision field
into a message.  Exact for strings, booleans and null (the only shapes
the settled claims exercise); the numeric, array and object renderings
are conventional placeholders for the JavaScript coercion. -/
def jsValueToString : Json → String
  | .null => "null"
  | .bool true => "true"
  | .bool false => "false"
  | .str s => s
  | .num m e => toString m ++ (if e = 0 then "" else "e" ++ toString e)
  | .arr _ => ""
  | .obj _ => "[object Object]"

/-- JavaScript or-else on an optional field used as a string: the
default replaces an absent or falsy value. -/
def jsOrElseStr (v : Option Json) (d : String) : String :=
  match v with
  | some j => if truthy j then jsValueToString j else d
  | none => d

structure IncomingMessage where
  id : String
  content : String
  timestamp : Option Int
  isResponse : Bool := false
deriving Repr, DecidableEq

/-- Outbound message created by createOutgoingMessage; the metadata
entries the orchestrator sets are modelled as named fields. -/
structure OutgoingMessage where
  content : String
  isResponse : Bool
  originalMessageId : Option String := none
  errorFlag : Bool := false
deriving Repr, DecidableEq

inductive OrchStatus where
  | success
  | failure
deriving Repr, DecidableEq

structure IOrchestrationResponse where
  response : OutgoingMessage
  executedJobs : Option (List String) := none
  status : OrchStatus
  error : Option String := none
deriving Repr, DecidableEq

/-- Outcomes of the external calls one message-handling pass can make:
the decision LLM call, the addJob call, the instant-job wait, the
contextual-response LLM call, the cancelJob call, and the queue-stats
lookup.  An error value models the corresponding call throwing (with
the message text) or, for the wait, rejecting. -/
structure OrchestratorOracles where
  llm : Except String String
  addJobResult : Except String String
  waitResult : Except String Json
  ctxLLM : Except String String
  cancelResult : Bool
  statusReport : Except String String

structure ExecResult where
  responseText : String
  executedJobs : List String
deriving Repr, DecidableEq

/-- Error return of the catch block of executeFunctionDecision. -/
def execFnError (e : String) (jobs : List String) : ExecResult :=
  { responseText :=
      "I encountered an error while executing the requested function: " ++ e,
    executedJobs := jobs }

/-- AgentMaster.executeFunctionDecision.  Every throw inside the try —
missing function name, unknown function, addJob failure, wait failure —
lands in the single catch, which turns the error text into a user-facing
response instead of rethrowing.  generateContextualResponse has its own
catch and falls back to the suggested response or a stock sentence. -/
def executeFunctionDecision (decision : Json) (fns : List ICustomFunction)
    (o : OrchestratorOracles) : ExecResult :=
  match jsGetField decision "function_name" with
  | none => execFnError "Function name is required for execute_function action" []
  | some fn =>
    if ¬ truthy fn then
      execFnError "Function name is required for execute_function action" []
    else
      let fname := jsValueToString fn
      let lookedUp := match fn with
        | .str n => getFunction fns n
        | _ => none
      match lookedUp with
      | none => execFnError ("Function " ++ fname ++ " not found") []
      | some _ =>
        let executionType := match jsGetField decision "execution_type" with
          | some j => if truthy j then j else Json.str "instant"
          | none => Json.str "instant"
        match o.addJobResult with
        | .error e => execFnError e []
        | .ok jobId =>
          let isInstant := match executionType with
            | .str s => s == "instant"
            | _ => false
          if isInstant then
            match o.waitResult with
            | .error e => execFnError e [jobId]
            | .ok _ =>
              let text := match o.ctxLLM with
                | .ok c => c
                | .error _ =>
                  jsOrElseStr (jsGetField decision "response_message")
                    ("I\x27ve completed the " ++ fname ++ " function successfully.")
              { responseText := text, executedJobs := [jobId] }
          else
            let isSchedule := match executionType with
              | .str s => s == "schedule"
              | _ => false
            { responseText :=
                jsOrElseStr (jsGetField decision "response_message")
                  ("I\x27ve scheduled the " ++ fname ++ " function to run " ++
                   (if isSchedule then "at the specified time" else "repeatedly")
                   ++ "."),
              executedJobs := [jobId] }

/-- AgentMaster.cancelJobDecision: its catch turns the missing-job-id
throw into response text; cancelJob itself never throws. -/
def cancelJobDecision (decision : Json) (o : OrchestratorOracles) : ExecResult :=
  match jsGetField decision "job_id" with
  | none =>
    { responseText := "Error cancelling job: Job ID is required for cancel_job action",
      executedJobs := [] }
  | some j =>
    if ¬ truthy j then
      { responseText := "Error cancelling job: Job ID is required for cancel_job action",
        executedJobs := [] }
    else
      let jid := jsValueToString j
      if o.cancelResult then
        { responseText := "Job " ++ jid ++ " has been cancelled successfully.",
          executedJobs := [] }
      else
        { responseText := "Could not cancel job " ++ jid ++
            ". It may not exist or already be completed.",
          executedJobs := [] }

/-- AgentMaster.getStatusDecision: the assembled status report text is
an external outcome (queue counts live in the broker); the catch turns a
failure into response text. -/
def getStatusDecision (o : OrchestratorOracles) : ExecResult :=
  match o.statusReport with
  | .ok report => { responseText := report, executedJobs := [] }
  | .error e => { responseText := "Error getting status: " ++ e, executedJobs := [] }

/-- AgentMaster.executeDecision: dispatch on the action string; any
unrecognized or absent action falls through to the direct-response
default. -/
def executeDecision (decision : Json) (fns : List ICustomFunction)
    (o : OrchestratorOracles) : ExecResult :=
  match jsGetField decision "action" with
  | some (Json.str "execute_function") => executeFunctionDecision decision fns o
  | some (Json.str "cancel_job") => cancelJobDecision decision o
  | some (Json.str "get_status") => getStatusDecision o
  | _ =>
    { responseText :=
        jsOrElseStr (jsGetField decision "response_message")
          "I\x27ve processed your message.",
      executedJobs := [] }

def apologyText (e : String) : String :=
  "I apologize, but I encountered an error while processing your request: " ++ e

/-- AgentMaster.orchestrationMaster.  The try covers the LLM decision
call and the content check; parseLLMDecision and executeDecision are
total, so the only throwing steps are the ones modelled by the oracle.
The catch builds an apologetic error response, so the function always
returns a response tagged isResponse. -/
def orchestrationMaster (msg : IncomingMessage) (fns : List ICustomFunction)
    (o : OrchestratorOracles) : IOrchestrationResponse :=
  match o.llm with
  | .error e =>
    { response := { content := apologyText e, isResponse := true,
                    originalMessageId := some msg.id, errorFlag := true },
      status := OrchStatus.failure, error := some e }
  | .ok content =>
    if content = "" then
      { response := { content := apologyText "Invalid response from LLM",
                      isResponse := true, originalMessageId := some msg.id,
                      errorFlag := true },
        status := OrchStatus.failure, error := some "Invalid response from LLM" }
    else
      let decision := parseLLMDecision content
      let result := executeDecision decision fns o
      { response := { content := result.responseText, isResponse := true,
                      originalMessageId := some msg.id },
        executedJobs := some result.executedJobs,
        status := OrchStatus.success }

/-- Result of one pass of the message handler: the messages actually
delivered outbound, whether orchestrationMaster was dispatched, and the
in-flight set after the finally block. -/
structure HandleResult where
  sent : List OutgoingMessage
  dispatched : Bool
  activeAfter : List String
deriving Repr, DecidableEq

/-- AgentMaster.handleIncomingMessage.  Guards in source order:
duplicate suppression against the in-flight set, structural validation
(truthy id, content and timestamp), and the response-marker skip.  A
message passing the guards is registered in the in-flight set, processed
by orchestrationMaster (total), and its response is published; when the
publish itself throws, the catch declines to send the apology because
the message id is still registered (the finally that removes it runs
after the catch), so the request stays unanswered exactly when the
outbound transport fails. -/
def handleIncomingMessage (active : List String) (msg : IncomingMessage)
    (fns : List ICustomFunction) (o : OrchestratorOracles) (sendOk : Bool) :
    HandleResult :=
  if active.contains msg.id then
    { sent := [], dispatched := false, activeAfter := active }
  else if msg.id = "" ∨ msg.content = "" ∨ msg.timestamp = none then
    { sent := [], dispatched := false, activeAfter := active }
  else if msg.isResponse then
    { sent := [], dispatched := false, activeAfter := active }
  else
    let activeIn := msg.id :: active
    let resp := orchestrationMaster msg fns o
    if sendOk then
      { sent := [resp.response], dispatched := true,
        activeAfter := activeIn.erase msg.id }
    else
      { sent := [], dispatched := true, activeAfter := activeIn.erase msg.id }

/-! # Theorems for the specification claims

Concrete fixtures shared by witnesses and counterexamples come first. -/

def mathUtilsDef : IFunctionDefinition :=
  { name := "mathUtils",
    description := "Mathematical utility functions for basic calculations, statistics, and number operations",
    type := FunctionType.helper,
    parameters := [
      { name := "numbers", type := "array",
        description := "Array of numbers to process", required := true },
      { name := "operation", type := "string",
        description := "Math operation: sum, average, min, max, median, or factorial (for single number)",
        required := true }],
    timeout := some 10000 }

def mathUtilsFn : ICustomFunction := { definition := mathUtilsDef }

def slowFnFixture : ICustomFunction :=
  { definition := { name := "slowFunction", description := "sleeps",
                    type := FunctionType.helper, parameters := [],
                    timeout := some 5000 } }

def instantJobData : IJobData :=
  { functionName := "mathUtils", executionType := JobExecutionType.instant }

def repeatJobData : IJobData :=
  { functionName := "mathUtils", executionType := JobExecutionType.repeated,
    repeatInterval := some 5000 }

def scheduleJobData : IJobData :=
  { functionName := "mathUtils", executionType := JobExecutionType.schedule,
    scheduleTime := some 5000 }

def completedJobFixture : IJob :=
  { id := "job-1", data := instantJobData, status := JobStatus.completed,
    createdAt := 0, completedAt := some 50 }

def emptyJQ : JQState := {}

def llmCfgFixture : ILLMConfig :=
  { provider := LLMProvider.anthropic, apiKey := "key",
    model := "claude-3-sonnet-20240229" }

def staleInstFixture : ILLMInstance :=
  { id := "llm-stale", config := llmCfgFixture, createdAt := 0, lastUsed := some 0 }

def freshInstFixture : ILLMInstance :=
  { id := "llm-fresh", config := llmCfgFixture, createdAt := 0,
    lastUsed := some 89999000 }

def msgFixture : IncomingMessage :=
  { id := "msg-1", content := "hello", timestamp := some 0 }

def oraclesFailFixture : OrchestratorOracles :=
  { llm := Except.error "boom", addJobResult := Except.error "redis down",
    waitResult := Except.error "Job execution timeout",
    ctxLLM := Except.error "provider error", cancelResult := false,
    statusReport := Except.error "stats unavailable" }

/-- C10: a worker or queue status-update event for a job id absent from
the Job Engine in-memory job-status map leaves the map completely
unchanged, whatever status, result or error the event carries: no entry
is created and no record is modified. -/
theorem updateJobStatus_unknown_id_frame (jobs : List (String × IJob))
    (jobId : String) (status : JobStatus) (result : Option Json)
    (err : Option String) (now : Int) (h : mapGet jobs jobId = none) :
    updateJobStatus jobs jobId status result err now = jobs := by
  unfold updateJobStatus
  rw [h]

/-- Witness for C10: a concrete event for an unknown id leaves a
concrete one-job map untouched. -/
theorem updateJobStatus_unknown_id_frame_witness :
    updateJobStatus [("job-1", completedJobFixture)] "job-2" JobStatus.failed
      none (some "boom") 99 = [("job-1", completedJobFixture)] :=
  updateJobStatus_unknown_id_frame _ _ _ _ _ _ rfl

/-- C9: the cleanup sweep retains exactly the instances that are not
idle: an instance survives cleanup if and only if it was present and its
last-used timestamp (when it has one) is not more than 24 hours in the
past; in particular no instance used more than 24 hours ago remains and
every instance used within the last 24 hours is retained. -/
theorem cleanup_evicts_exactly_idle (instances : List (String × ILLMInstance))
    (now : Int) (p : String × ILLMInstance) :
    p ∈ cleanup instances now ↔
      p ∈ instances ∧ ∀ t, p.2.lastUsed = some t → ¬ t < now - dayMs := by
  unfold cleanup
  rw [List.mem_filter]
  refine and_congr_right fun _ => ?_
  cases h : p.2.lastUsed with
  | none => simp [h]
  | some t =>
    simp only [h, Option.some.injEq]
    constructor
    · intro hb t2 ht2
      subst ht2
      intro hlt
      rw [if_pos hlt] at hb
      exact Bool.false_ne_true hb
    · intro hr
      rw [if_neg (hr t rfl)]

/-- Witness for C9: with now at 90000000 ms, the instance last used at
time 0 (idle for more than 24 h) is evicted and the instance last used
89999000 (within 24 h) is retained. -/
theorem cleanup_evicts_exactly_idle_witness :
    ("llm-fresh", freshInstFixture) ∈
      cleanup [("llm-stale", staleInstFixture), ("llm-fresh", freshInstFixture)]
        90000000 ∧
    ("llm-stale", staleInstFixture) ∉
      cleanup [("llm-stale", staleInstFixture), ("llm-fresh", freshInstFixture)]
        90000000 := by
  constructor
  · exact (cleanup_evicts_exactly_idle _ 90000000 _).mpr
      ⟨List.mem_cons_of_mem _ (List.mem_cons_self _ _),
       fun t ht => by injection ht with h2; subst h2; decide⟩
  · intro hmem
    have h := (cleanup_evicts_exactly_idle _ 90000000 _).mp hmem
    exact absurd (h.2 0 rfl) (by decide)

/-- C8: the mathUtils handler on operation average with numbers
10, 20, 30, 45, 55 returns the stats object whose result is exactly 32
(the mean rounded to two decimals), and on the empty numbers array the
average operation fails with the empty-array error. -/
theorem mathUtils_average_scenario :
    mathUtilsHandler (some [10, 20, 30, 45, 55]) (some "average") =
      Except.ok (MathReturn.stats "average" [10, 20, 30, 45, 55] 32 5) ∧
    mathUtilsHandler (some []) (some "average") =
      Except.error "Cannot calculate average of empty array" := by
  constructor
  · simp only [mathUtilsHandler, show jsToLower "average" = "average" from rfl]
    norm_num [round2, listSum]
    exact fun h => absurd h (by decide)
  · simp only [mathUtilsHandler, show jsToLower "average" = "average" from rfl]
    simp

/-- C7: executeFunction races the handler against a timer set to the
declared timeout (30000 ms when none is declared): when the timer fires
before the handler settles the caller receives the timeout error —
whatever the handler later settles to, so its late result is discarded —
and when the handler settles first the caller receives the handler
outcome. -/
theorem executeFunction_timeout_race (fns : List ICustomFunction) (name : String)
    (f : ICustomFunction) (settleTime : Int) (outcome : Except String Json)
    (hf : getFunction fns name = some f) :
    (f.definition.timeout = none → effectiveTimeout f.definition = 30000) ∧
    (effectiveTimeout f.definition < settleTime →
      executeFunction fns name settleTime outcome =
        Except.error "Function execution timeout") ∧
    (settleTime < effectiveTimeout f.definition →
      executeFunction fns name settleTime outcome = outcome) := by
  refine ⟨fun ht => ?_, fun hgt => ?_, fun hlt => ?_⟩
  · simp [effectiveTimeout, ht]
  · unfold executeFunction
    rw [hf]
    exact if_neg (by omega)
  · unfold executeFunction
    rw [hf]
    exact if_pos hlt

/-- Witness for C7, matching the spec scenario: a handler with declared
timeout 5000 ms that would settle at 8000 ms yields the timeout error,
and its eventual ok-result is discarded. -/
theorem executeFunction_timeout_race_witness :
    executeFunction [slowFnFixture] "slowFunction" 8000 (Except.ok Json.null) =
      Except.error "Function execution timeout" :=
  (executeFunction_timeout_race [slowFnFixture] "slowFunction" slowFnFixture
    8000 (Except.ok Json.null) rfl).2.1 (by decide)

/-- C2 counterexample: cancelJob on a job whose status is already
Completed (terminal) returns true — not false — and overwrites the
status with Cancelled, because the source checks only that the id is
known; the claim fails as stated. -/
theorem cancelJob_terminal_counterexample :
    (cancelJob { jobs := [("job-1", completedJobFixture)] } "job-1" 100).1 = true ∧
    ((mapGet (cancelJob { jobs := [("job-1", completedJobFixture)] } "job-1"
      100).2.jobs "job-1").map IJob.status) = some JobStatus.cancelled := by
  constructor <;> rfl

/-- C2 amended: cancelJob returns false only for an unknown job id; for
every known job — terminal or not — it returns true and overwrites the
status with Cancelled (other record fields unchanged). -/
theorem cancelJob_known_job_cancels (s : JQState) (jobId : String) (now : Int)
    (job : IJob) (h : mapGet s.jobs jobId = some job) :
    (cancelJob s jobId now).1 = true ∧
    mapGet (cancelJob s jobId now).2.jobs jobId =
      some { job with status := JobStatus.cancelled } := by
  unfold cancelJob
  rw [h]
  refine ⟨rfl, ?_⟩
  show mapGet (updateJobStatus s.jobs jobId JobStatus.cancelled none none now)
    jobId = _
  unfold updateJobStatus
  rw [h]
  exact mapGet_mapSet_self _ _ _

/-- Witness for C2 (amended form) at the concrete completed job. -/
theorem cancelJob_known_job_cancels_witness :
    (cancelJob { jobs := [("job-1", completedJobFixture)] } "job-1" 100).1 = true ∧
    mapGet (cancelJob { jobs := [("job-1", completedJobFixture)] } "job-1"
      100).2.jobs "job-1" =
      some { completedJobFixture with status := JobStatus.cancelled } :=
  cancelJob_known_job_cancels _ "job-1" 100 completedJobFixture rfl

/-- C3 counterexample: a repeat job spec naming the Helper-class
mathUtils function makes addJob fail with the NotRepeatable error, but
the job-status map is not unchanged: starting from the empty map, a
Pending record for the failed job is left behind. -/
theorem addJob_repeat_nonrunner_counterexample :
    (addJob [mathUtilsFn] emptyJQ "job-9" repeatJobData 0).1 =
      Except.error "Only runner functions can be repeated" ∧
    mapGet emptyJQ.jobs "job-9" = none ∧
    mapGet (addJob [mathUtilsFn] emptyJQ "job-9" repeatJobData 0).2.jobs "job-9" =
      some (pendingRecord "job-9" repeatJobData 0) := by
  refine ⟨rfl, rfl, rfl⟩

/-- C3 amended: for a repeat job spec with a truthy repeat interval
whose referenced function exists but is not Runner-class, addJob fails
with the NotRepeatable error, yet the job record has already been
inserted: the final state carries a Pending record for the failed job
(with a missing or zero repeat interval the call fails earlier, with the
repeat-interval-required error, and likewise leaves the record). -/
theorem addJob_repeat_nonrunner_amended (fns : List ICustomFunction)
    (s : JQState) (jobId : String) (jobData : IJobData) (now : Int)
    (f : ICustomFunction) (ri : Int)
    (hf : getFunction fns jobData.functionName = some f)
    (hty : f.definition.type ≠ FunctionType.runner)
    (hexec : jobData.executionType = JobExecutionType.repeated)
    (hri : jobData.repeatInterval = some ri) (hri0 : ri ≠ 0) :
    addJob fns s jobId jobData now =
      (Except.error "Only runner functions can be repeated",
       { s with jobs := mapSet s.jobs jobId (pendingRecord jobId jobData now) }) := by
  simp [addJob, addRepeatJob, hf, hexec, hri, hri0, hty]

/-- Witness for C3 (amended form) at the concrete repeat spec. -/
theorem addJob_repeat_nonrunner_amended_witness :
    addJob [mathUtilsFn] emptyJQ "job-9" repeatJobData 0 =
      (Except.error "Only runner functions can be repeated",
       { emptyJQ with
         jobs := mapSet emptyJQ.jobs "job-9" (pendingRecord "job-9" repeatJobData 0) }) :=
  addJob_repeat_nonrunner_amended [mathUtilsFn] emptyJQ "job-9" repeatJobData 0
    mathUtilsFn 5000 rfl (by decide) rfl rfl (by decide)

/-- C4: for a schedule-mode job spec whose referenced function exists,
addJob fails with an invalid-schedule error exactly when the schedule
time is absent (required error) or not strictly in the future
(must-be-in-the-future error); otherwise it succeeds and enqueues the
job with delay equal to schedule time minus now. -/
theorem addJob_schedule_validation (fns : List ICustomFunction) (s : JQState)
    (jobId : String) (jobData : IJobData) (now : Int) (f : ICustomFunction)
    (hf : getFunction fns jobData.functionName = some f)
    (hexec : jobData.executionType = JobExecutionType.schedule) :
    (jobData.scheduleTime = none →
      (addJob fns s jobId jobData now).1 =
        Except.error "Schedule time is required for scheduled jobs") ∧
    (∀ st, jobData.scheduleTime = some st → st - now ≤ 0 →
      (addJob fns s jobId jobData now).1 =
        Except.error "Schedule time must be in the future") ∧
    (∀ st, jobData.scheduleTime = some st → 0 < st - now →
      (addJob fns s jobId jobData now).1 = Except.ok jobId ∧
      (addJob fns s jobId jobData now).2.queue = s.queue ++ [{
        name := "execute-function", data := jobData,
        opts := { jobId := jobId, delay := some (st - now),
                  priority := jsOrElseInt jobData.priority 0,
                  attempts := jsOrElseInt jobData.retries 3 } }]) := by
  refine ⟨fun hst => ?_, fun st hst hle => ?_, fun st hst hgt => ?_⟩
  · simp [addJob, addScheduledJob, hf, hexec, hst]
  · simp [addJob, addScheduledJob, hf, hexec, hst, hle]
  · constructor
    · simp [addJob, addScheduledJob, hf, hexec, hst, not_le.mpr hgt]
    · simp [addJob, addScheduledJob, addInstantJob, hf, hexec, hst,
        not_le.mpr hgt]

/-- Witness for C4: a schedule spec for an existing function with
schedule time 5000 at now 1000 is accepted and enqueued with
delay 4000. -/
theorem addJob_schedule_validation_witness :
    (addJob [mathUtilsFn] emptyJQ "job-5" scheduleJobData 1000).1 =
      Except.ok "job-5" ∧
    (addJob [mathUtilsFn] emptyJQ "job-5" scheduleJobData 1000).2.queue = [{
      name := "execute-function", data := scheduleJobData,
      opts := { jobId := "job-5", delay := some 4000, priority := 0,
                attempts := 3 } }] := by
  have h := (addJob_schedule_validation [mathUtilsFn] emptyJQ "job-5"
    scheduleJobData 1000 mathUtilsFn rfl rfl).2.2 5000 rfl (by decide)
  exact ⟨h.1, h.2⟩

/-- C5 counterexample: the reply consisting solely of the object with an
empty-string action field parses successfully and the action field is
present, yet parseLLMDecision returns the fallback decision rather than
the parsed object, because the source tests the field for truthiness and
the empty string is falsy; the claim as stated (result is the parsed
object whenever the field is present) fails here. -/
theorem parseLLMDecision_falsy_action_counterexample :
    jsonParse "\x7b\"action\":\"\"\x7d" =
      some (Json.obj [("action", Json.str "")]) ∧
    jsGetField (Json.obj [("action", Json.str "")]) "action" =
      some (Json.str "") ∧
    parseLLMDecision "\x7b\"action\":\"\"\x7d" = fallbackDecision ∧
    fallbackDecision ≠ Json.obj [("action", Json.str "")] := by
  refine ⟨rfl, rfl, rfl, fun h => ?_⟩
  have h2 : (some (Json.str fallbackClarification) : Option Json) = none :=
    congrArg (fun j => jsGetField j "response_message") h
  exact Option.noConfusion h2

/-- C5 amended: parseLLMDecision is total (a plain function, never a
thrown error): when no brace-delimited fragment exists, the fragment
fails to parse, or the parsed object has no truthy action field (absent
or falsy — null, false, 0 or the empty string), the result is the
fallback direct-response decision with the generic clarification
message; when the action field is present and truthy the result is the
parsed object. -/
theorem parseLLMDecision_total_fallback (response : String) :
    (jsonMatch response = none → parseLLMDecision response = fallbackDecision) ∧
    (∀ frag, jsonMatch response = some frag → jsonParse frag = none →
      parseLLMDecision response = fallbackDecision) ∧
    (∀ frag d, jsonMatch response = some frag → jsonParse frag = some d →
      jsGetField d "action" = none →
      parseLLMDecision response = fallbackDecision) ∧
    (∀ frag d a, jsonMatch response = some frag → jsonParse frag = some d →
      jsGetField d "action" = some a → truthy a = false →
      parseLLMDecision response = fallbackDecision) ∧
    (∀ frag d a, jsonMatch response = some frag → jsonParse frag = some d →
      jsGetField d "action" = some a → truthy a = true →
      parseLLMDecision response = d) := by
  refine ⟨fun h1 => ?_, fun frag h1 h2 => ?_, fun frag d h1 h2 h3 => ?_,
    fun frag d a h1 h2 h3 h4 => ?_, fun frag d a h1 h2 h3 h4 => ?_⟩
  · simp [parseLLMDecision, h1]
  · simp [parseLLMDecision, h1, h2]
  · simp [parseLLMDecision, h1, h2, h3]
  · simp [parseLLMDecision, h1, h2, h3, h4]
  · simp [parseLLMDecision, h1, h2, h3, h4]

/-- Witness for C5 (amended form): a noisy reply embedding a valid
decision object parses to that object. -/
theorem parseLLMDecision_total_fallback_witness :
    parseLLMDecision "Sure! \x7b\"action\": \"get_status\"\x7d" =
      Json.obj [("action", Json.str "get_status")] :=
  (parseLLMDecision_total_fallback
    "Sure! \x7b\"action\": \"get_status\"\x7d").2.2.2.2
    "\x7b\"action\": \"get_status\"\x7d"
    (Json.obj [("action", Json.str "get_status")])
    (Json.str "get_status") rfl rfl rfl rfl

/-- C1: for a message that passes the duplicate, validation and
response-marker guards, the handler publishes exactly the response that
orchestrationMaster returns — for every combination of outcomes of the
LLM call, the job engine calls and the wait, since every failure is
caught and converted into response text — and that response carries the
response marker; when the decision LLM call fails the response content
is the apology containing the error text.  The request goes unanswered
exactly when the outbound publish itself fails. -/
theorem orchestrator_always_responds (active : List String)
    (msg : IncomingMessage) (fns : List ICustomFunction)
    (o : OrchestratorOracles) (sendOk : Bool)
    (hdup : active.contains msg.id = false)
    (hid : msg.id ≠ "") (hc : msg.content ≠ "") (ht : msg.timestamp ≠ none)
    (hr : msg.isResponse = false) :
    (sendOk = true →
      (handleIncomingMessage active msg fns o sendOk).sent =
        [(orchestrationMaster msg fns o).response] ∧
      (orchestrationMaster msg fns o).response.isResponse = true) ∧
    (sendOk = false → (handleIncomingMessage active msg fns o sendOk).sent = []) ∧
    (∀ e, o.llm = Except.error e →
      (orchestrationMaster msg fns o).response.content = apologyText e) := by
  have hguard : ¬ (msg.id = "" ∨ msg.content = "" ∨ msg.timestamp = none) := by
    push_neg
    exact ⟨hid, hc, ht⟩
  have hmem : msg.id ∉ active := by simpa using hdup
  refine ⟨fun hs => ?_, fun hs => ?_, fun e hllm => ?_⟩
  · subst hs
    refine ⟨by simp [handleIncomingMessage, hmem, hguard, hr], ?_⟩
    cases hllm : o.llm with
    | error e => simp [orchestrationMaster, hllm]
    | ok content =>
      by_cases hc0 : content = "" <;> simp [orchestrationMaster, hllm, hc0]
  · subst hs
    simp [handleIncomingMessage, hmem, hguard, hr]
  · simp [orchestrationMaster, hllm]

/-- Witness for C1: a concrete valid message whose decision LLM call
fails with the error boom is still answered, with the apology carrying
that error text. -/
theorem orchestrator_always_responds_witness :
    (handleIncomingMessage [] msgFixture [] oraclesFailFixture true).sent =
      [(orchestrationMaster msgFixture [] oraclesFailFixture).response] ∧
    (orchestrationMaster msgFixture [] oraclesFailFixture).response.content =
      apologyText "boom" := by
  have h := orchestrator_always_responds [] msgFixture [] oraclesFailFixture
    true rfl (by decide) (by decide) (by decide) rfl
  exact ⟨(h.1 rfl).1, h.2.2 "boom" rfl⟩

/-- C6: delivering a message whose id is already in the in-flight set is
dropped without any processing: orchestrationMaster is not dispatched,
nothing is published, and the in-flight set is unchanged.  Since a first
delivery that passes the guards registers its id in the set for the
whole of its processing, a concurrent second delivery of the same id
hits this branch, so at most one dispatch occurs per in-flight id. -/
theorem duplicate_delivery_suppressed (active : List String)
    (msg : IncomingMessage) (fns : List ICustomFunction)
    (o : OrchestratorOracles) (sendOk : Bool)
    (h : active.contains msg.id = true) :
    handleIncomingMessage active msg fns o sendOk =
      { sent := [], dispatched := false, activeAfter := active } := by
  have hmem : msg.id ∈ active := by simpa using h
  simp [handleIncomingMessage, hmem]

/-- Witness for C6: redelivering msg-1 while msg-1 is registered
in-flight is dropped whole. -/
theorem duplicate_delivery_suppressed_witness :
    handleIncomingMessage ["msg-1"] msgFixture [] oraclesFailFixture true =
      { sent := [], dispatched := false, activeAfter := ["msg-1"] } :=
  duplicate_delivery_suppressed ["msg-1"] msgFixture [] oraclesFailFixture
    true rfl

end Spec2Proof
